import Mathlib

/-!
Verification of the client-side orchestration layer of the adaptive file
encryptor dashboard (src/ai_encryptor_plus/ui/script.js).

The script is shallowly embedded: pure helpers (fmtBytes, the
content-disposition filename parser, trimming, URL encoding) become Lean
functions over Nat / List Char / ℚ, and each asynchronous click handler
(encrypt, compare, decrypt) becomes a function from its request inputs and
the outcome of its single fetch to the list of observable effects (DOM log
lines, status line updates, link insertions, object-URL lifecycle events,
chart updates, button enablement) it performs, in order.

JavaScript numbers are modelled as exact rationals; `Option ℚ` stands for a
possibly-NaN number (`none` = NaN).  `number.toFixed(k)` on a binary float
that holds an exact rational rounds half away from zero towards +∞ on ties,
which is `⌊q * 10 ^ k + 1 / 2⌋` for the nonnegative values that occur here;
all byte-size divisions in fmtBytes are by powers of two and hence exact in
binary floating point, so the Nat-level embedding below is exact.
-/

/- ========= Character and string utilities ========= -/

/-- ASCII whitespace as recognised by the JavaScript string `trim()` and by
`parseFloat` leading-whitespace skipping (space, tab, LF, VT, FF, CR).
JS additionally trims some Unicode space code points; no claim here
involves them. -/
def isWsChar (c : Char) : Bool :=
  c = ' ' || c = '\t' || c = '\n' || c = '\r' || c = '\x0b' || c = '\x0c'

/-- Decimal digit test. -/
def isDigitCh (c : Char) : Bool :=
  '0' ≤ c && c ≤ '9'

/-- The double-quote character (written by code point to keep literals plain). -/
def quoteCh : Char := Char.ofNat 34

/-- Test whether `pat` is a prefix of `l`. -/
def charsHasPre : List Char → List Char → Bool
  | [], _ => true
  | _ :: _, [] => false
  | a :: ps, b :: ls => a = b && charsHasPre ps ls

/-- Test whether `pat` occurs contiguously anywhere in `l`. -/
def charsHasSub (pat : List Char) : List Char → Bool
  | [] => pat.isEmpty
  | b :: ls => charsHasPre pat (b :: ls) || charsHasSub pat ls

/-- Substring test on strings (used to state "the message contains ..."). -/
def strContains (hay pat : String) : Bool :=
  charsHasSub pat.data hay.data

/-- Suffix test on strings (used to state "... ends in ..."). -/
def strEndsWith (hay pat : String) : Bool :=
  charsHasPre pat.data.reverse hay.data.reverse

/-- JavaScript `String.prototype.split(sep)` on character lists, fuel-driven
so that it evaluates inside the kernel; `fuel` is always called with at
least the length of the list.  Splits on the leftmost occurrences of the
non-empty separator, like JS `split`. -/
def splitOnAuxL (sep : List Char) : Nat → List Char → List (List Char)
  | _, [] => [[]]
  | 0, l => [l]
  | fuel + 1, c :: rest =>
    if charsHasPre sep (c :: rest) then
      [] :: splitOnAuxL sep fuel ((c :: rest).drop sep.length)
    else
      match splitOnAuxL sep fuel rest with
      | [] => [[c]]
      | t :: ts => (c :: t) :: ts

/-- JavaScript `s.split(sep)` for a non-empty separator (the only use in the
script); an empty separator returns the whole string, which never occurs. -/
def splitOnStr (s sep : String) : List String :=
  if sep.data.isEmpty then [s]
  else (splitOnAuxL sep.data (s.data.length + 1) s.data).map String.mk

/-- Last element of `file.split(sep)` — JS `split(sep).pop()`; `split` never
returns an empty array so the default is never used. -/
def lastSegment (f : String) : String :=
  (splitOnStr f "/").getLastD ""

/-- JavaScript `trim()` on character lists: drop whitespace from both ends. -/
def jsTrimL (l : List Char) : List Char :=
  ((l.dropWhile isWsChar).reverse.dropWhile isWsChar).reverse

/-- JavaScript `String.prototype.trim()`. -/
def jsTrim (s : String) : String :=
  String.mk (jsTrimL s.data)

/-- Numeric value of a list of decimal digit characters. -/
def digitsToNat (l : List Char) : Nat :=
  l.foldl (fun acc c => 10 * acc + (c.toNat - 48)) 0

/- ========= JavaScript parseFloat ========= -/

/-- Syntactic decomposition of the longest valid decimal-float prefix of a
string: sign, integer digits value, fraction digits value and count, and
optional exponent.  Purely structural so the kernel can evaluate it. -/
structure FloatParts where
  neg : Bool
  intVal : Nat
  fracVal : Nat
  fracLen : Nat
  expNeg : Bool
  expVal : Nat
deriving DecidableEq

/-- Scanner for JavaScript `parseFloat`: skip leading whitespace, optional
sign, digits, optional point and fraction digits, optional exponent.
Returns `none` exactly when no digit is found (JS result NaN).  The literal
"Infinity", which JS `parseFloat` also accepts, lies outside the rational
value domain modelled here and is treated as unparsable; no behaviour
claimed in this development involves it. -/
def scanFloat (s : String) : Option FloatParts :=
  let l := s.data.dropWhile isWsChar
  let sg : Bool × List Char :=
    match l with
    | c :: t => if c = '-' then (true, t) else if c = '+' then (false, t) else (false, l)
    | [] => (false, [])
  let ds := sg.2.takeWhile isDigitCh
  let l2 := sg.2.dropWhile isDigitCh
  let fr : List Char × List Char :=
    match l2 with
    | c :: t => if c = '.' then (t.takeWhile isDigitCh, t.dropWhile isDigitCh) else ([], l2)
    | [] => ([], l2)
  if ds.isEmpty && fr.1.isEmpty then none
  else
    let ex : Bool × Nat :=
      match fr.2 with
      | c :: t =>
        if c = 'e' || c = 'E' then
          match t with
          | c2 :: u =>
            if c2 = '-' then
              (match u.takeWhile isDigitCh with
               | [] => (false, 0)
               | es => (true, digitsToNat es))
            else if c2 = '+' then
              (match u.takeWhile isDigitCh with
               | [] => (false, 0)
               | es => (false, digitsToNat es))
            else
              (match t.takeWhile isDigitCh with
               | [] => (false, 0)
               | es => (false, digitsToNat es))
          | [] => (false, 0)
        else (false, 0)
      | [] => (false, 0)
    some { neg := sg.1, intVal := digitsToNat ds, fracVal := digitsToNat fr.1,
           fracLen := fr.1.length, expNeg := ex.1, expVal := ex.2 }

/-- Rational value denoted by a scanned float. -/
def ratOfParts (p : FloatParts) : ℚ :=
  let mant : ℚ := (p.intVal : ℚ) + (p.fracVal : ℚ) / (10 : ℚ) ^ p.fracLen
  let e : ℚ := if p.expNeg then ((10 : ℚ) ^ p.expVal)⁻¹ else (10 : ℚ) ^ p.expVal
  (if p.neg then (-1 : ℚ) else 1) * mant * e

/-- JavaScript `parseFloat`, with `none` standing for NaN. -/
def jsParseFloat (s : String) : Option ℚ :=
  (scanFloat s).map ratOfParts

/-- Elapsed-time header read, script.js lines 166/263f:
`parseFloat(response.headers.get(h) || '0')`.  `headers.get` yields null for
an absent header; null and the empty string are falsy, so they are replaced
by the string "0" before parsing; any other string goes to `parseFloat`
unchanged. -/
def readTime (h : Option String) : Option ℚ :=
  jsParseFloat (match h with
    | none => "0"
    | some s => if s = "" then "0" else s)

/- ========= Number rendering (toFixed) ========= -/

/-- Left-pad a digit string with zeros to width `k`. -/
def padZeros (s : String) (k : Nat) : String :=
  String.mk (List.replicate (k - s.length) '0') ++ s

/-- Render the integer `m` as a decimal with `k` digits after the point
(the digits of `m` with a point inserted `k` places from the right). -/
def natFixed (m k : Nat) : String :=
  if k = 0 then toString m
  else toString (m / 10 ^ k) ++ "." ++ padZeros (toString (m % 10 ^ k)) k

/-- JavaScript `q.toFixed(k)` for an exact rational `q`: round half towards
+∞ at the k-th decimal (the ECMAScript tie rule), then print. -/
def toFixedQ (q : ℚ) (k : Nat) : String :=
  let m : Int := ⌊q * (10 : ℚ) ^ k + 1 / 2⌋
  if m < 0 then "-" ++ natFixed (-m).toNat k else natFixed m.toNat k

/-- `toFixed` lifted to possibly-NaN numbers: JS `NaN.toFixed(k)` is "NaN". -/
def jToFixed (t : Option ℚ) (k : Nat) : String :=
  match t with
  | none => "NaN"
  | some q => toFixedQ q k

/- ========= fmtBytes (script.js lines 9-15) ========= -/

/-- Exact value of `⌊n / u * 10 + 1 / 2⌋` in Nat arithmetic (`u > 0`):
the quantity `n / u` rounded to one decimal, scaled by ten.  This is the
number whose digits `(n / u).toFixed(1)` prints, since `n / u` is a ratio
of a byte count by a power of two and hence exact in binary floats. -/
def tenthsOf (n u : Nat) : Nat :=
  (20 * n + u) / (2 * u)

/-- Render `tenthsOf n u` as JavaScript `(n / u).toFixed(1)`. -/
def fmt1 (n u : Nat) : String :=
  toString (tenthsOf n u / 10) ++ "." ++ toString (tenthsOf n u % 10)

/-- `fmtBytes`, script.js lines 9-15: bytes below 1 render as "0 B", below
1024 as an integer count of B, then one-decimal KB / MB / GB. -/
def fmtBytes (n : Nat) : String :=
  if n < 1 then "0 B"
  else if n < 1024 then toString n ++ " B"
  else if n < 1024 ^ 2 then fmt1 n 1024 ++ " KB"
  else if n < 1024 ^ 3 then fmt1 n (1024 ^ 2) ++ " MB"
  else fmt1 n (1024 ^ 3) ++ " GB"

/-- Ten times the quantity displayed by `fmtBytes n`, re-expressed in bytes
(the rendered one-decimal quantity times its unit factor, scaled by ten to
stay in Nat).  Used to state unit-consistent monotonicity of `fmtBytes`. -/
def renderedTenths (n : Nat) : Nat :=
  if n < 1 then 0
  else if n < 1024 then 10 * n
  else if n < 1024 ^ 2 then tenthsOf n 1024 * 1024
  else if n < 1024 ^ 3 then tenthsOf n (1024 ^ 2) * 1024 ^ 2
  else tenthsOf n (1024 ^ 3) * 1024 ^ 3

/- ========= encodeURIComponent ========= -/

/-- Characters left unescaped by JavaScript `encodeURIComponent`
(unreserved marks; 39 is the apostrophe). -/
def isUnreservedURI (c : Char) : Bool :=
  c.isAlpha || c.isDigit || c = '-' || c = '_' || c = '.' || c = '!' ||
  c = '~' || c = '*' || c = Char.ofNat 39 || c = '(' || c = ')'

/-- UTF-8 byte values of a character. -/
def utf8ByteVals (c : Char) : List Nat :=
  let n := c.toNat
  if n < 128 then [n]
  else if n < 2048 then [192 + n / 64, 128 + n % 64]
  else if n < 65536 then [224 + n / 4096, 128 + n / 64 % 64, 128 + n % 64]
  else [240 + n / 262144, 128 + n / 4096 % 64, 128 + n / 64 % 64, 128 + n % 64]

/-- Uppercase hexadecimal digit character for a value below 16. -/
def hexDigitCh (n : Nat) : Char :=
  if n < 10 then Char.ofNat (48 + n) else Char.ofNat (55 + n)

/-- Percent-encoding of one byte. -/
def percentEncodeByte (b : Nat) : List Char :=
  ['%', hexDigitCh (b / 16), hexDigitCh (b % 16)]

/-- JavaScript `encodeURIComponent`: unreserved characters pass through,
everything else is percent-encoded bytewise in UTF-8. -/
def encodeURIComponent (s : String) : String :=
  String.mk (s.data.foldr
    (fun c acc =>
      (if isUnreservedURI c then [c]
       else (utf8ByteVals c).foldr (fun b a2 => percentEncodeByte b ++ a2) []) ++ acc)
    [])

/- ========= Content-disposition filename extraction ========= -/

/-- Filename extraction, script.js lines 170/282:
`header?.split('filename=')[1]?.replace(/"/g, '') || fallback`.
A null header, a split without a second part, or an empty result after
deleting every double quote (empty strings are falsy) all fall back. -/
def parseContentDisposition (h : Option String) (fallback : String) : String :=
  match h with
  | none => fallback
  | some s =>
    match (splitOnStr s "filename=")[1]? with
    | none => fallback
    | some seg =>
      let name := String.mk (seg.data.filter (fun c => c ≠ quoteCh))
      if name = "" then fallback else name

/-- Modelled from the spec: the spec describes the extraction as "parsing
the filename= segment and stripping surrounding quotes"; this is that
description made literal (drop one leading and one trailing double quote
when both are present), for comparison against the code above, which
deletes every double quote in the segment. -/
def specStripSurround (seg : String) : String :=
  let l := seg.data
  if 2 ≤ l.length && charsHasPre [quoteCh] l && charsHasPre [quoteCh] l.reverse
  then String.mk (l.drop 1).dropLast
  else seg

/-- Modelled from the spec: filename extraction as the spec words it, with
surrounding-quote stripping in place of global quote deletion. -/
def specFilename (h : Option String) (fallback : String) : String :=
  match h with
  | none => fallback
  | some s =>
    match (splitOnStr s "filename=")[1]? with
    | none => fallback
    | some seg =>
      let name := specStripSurround seg
      if name = "" then fallback else name

/- ========= NaN-aware arithmetic for header-derived numbers ========= -/

/-- JS subtraction; NaN absorbs. -/
def jSub : Option ℚ → Option ℚ → Option ℚ
  | some a, some b => some (a - b)
  | _, _ => none

/-- JS comparison `c < a`; every comparison against NaN is false. -/
def jGtQ (a : Option ℚ) (c : ℚ) : Bool :=
  match a with
  | some x => decide (c < x)
  | none => false

/-- JS `Math.abs`; NaN absorbs. -/
def jAbs : Option ℚ → Option ℚ
  | some a => some |a|
  | none => none

/-- JS division; NaN absorbs.  A zero divisor yields an infinity in JS,
which is outside the modelled domain and mapped to `none`; the only
division in the script is guarded by `fifo > 0`, so this case is
unreachable there. -/
def jDiv : Option ℚ → Option ℚ → Option ℚ
  | some a, some b => if b = 0 then none else some (a / b)
  | _, _ => none

/-- JS multiplication; NaN absorbs. -/
def jMul : Option ℚ → Option ℚ → Option ℚ
  | some a, some b => some (a * b)
  | _, _ => none

/- ========= Comparison derived quantities (script.js lines 271-279) ========= -/

/-- Time saved: `saved = timeFIFO - timeAI`. -/
def savedOf (fifo ai : ℚ) : ℚ :=
  fifo - ai

/-- Percentage saved: `(timeFIFO > 0) ? (saved / timeFIFO * 100) : 0`. -/
def percentOf (fifo ai : ℚ) : ℚ :=
  if 0 < fifo then (fifo - ai) / fifo * 100 else 0

/-- The win test `saved > 0.0001` on real (non-NaN) times. -/
def isFasterB (fifo ai : ℚ) : Bool :=
  decide ((1 : ℚ) / 10000 < fifo - ai)

/-- Result line logged by the compare handler, script.js lines 271-279, on
the possibly-NaN parsed header times: `saved = timeFIFO - timeAI`,
`percent = (timeFIFO > 0) ? (saved / timeFIFO * 100) : 0`, then the
`saved > 0.0001` test picks the faster or the slower message. -/
def cmpVerdictMsg (tF tA : Option ℚ) : String :=
  if jGtQ (jSub tF tA) (1 / 10000) then
    "🏆 AI was " ++ jToFixed (jSub tF tA) 4 ++ "s ("
      ++ jToFixed (if jGtQ tF 0 then jMul (jDiv (jSub tF tA) tF) (some 100) else some 0) 1
      ++ "%) faster!"
  else
    "🐌 AI was " ++ jToFixed (jAbs (jSub tF tA)) 4 ++ "s slower."

/- ========= Requests, links and effects ========= -/

/-- A value appended to a multipart FormData body. -/
inductive FormValue where
  | str (s : String)
  | file (name : String)
deriving DecidableEq

/-- Link target: a fresh object URL for an in-memory binary, or a plain URL. -/
inductive Href where
  | objectURL
  | url (s : String)
deriving DecidableEq

/-- An anchor element as the script builds it: target, `download`
attribute (the save-as name), visible text content, CSS class. -/
structure DLink where
  href : Href
  downloadName : String
  text : String
  className : String
deriving DecidableEq

/-- One observable effect of a handler, in program order. -/
inductive Effect where
  | setDisabled (btn : String) (disabled : Bool)
  | logText (tab msg : String)
  | logLink (tab : String) (link : DLink)
  | setStatus (msg : String)
  | post (url : String) (form : List (String × FormValue))
  | createObjectURL
  | appendBody
  | click
  | scheduleRevoke (delayMs : Nat)
  | chartUpdate (fifo ai : Option ℚ)
deriving DecidableEq

/-- Predicate for object-URL release effects. -/
def isRevokeEffect : Effect → Bool
  | .scheduleRevoke _ => true
  | _ => false

/-- Text log lines of a trace. -/
def loggedTexts (es : List Effect) : List String :=
  es.filterMap (fun e => match e with | .logText _ m => some m | _ => none)

/-- Links inserted by a trace. -/
def linksOf (es : List Effect) : List DLink :=
  es.filterMap (fun e => match e with | .logLink _ l => some l | _ => none)

/-- `downloadBlob`, script.js lines 18-25: create an object URL for the
blob, append a link to the body, click it, and schedule revocation of the
URL (and removal of the node) after a fixed 800 ms delay.  The function is
defined by the script but never called by any handler. -/
def downloadBlob (_filename : String) : List Effect :=
  [.createObjectURL, .appendBody, .click, .scheduleRevoke 800]

/-- Multipart body of the encrypt request, script.js lines 152-156:
password (trimmed), mode, policy, then one entry per selected file. -/
def buildEncryptForm (pw mode policy : String) (files : List String) :
    List (String × FormValue) :=
  [("password", .str (jsTrim pw)), ("mode", .str mode), ("policy", .str policy)]
  ++ files.map (fun f => ("files", .file f))

/-- Multipart body of the compare request, script.js lines 249-252. -/
def buildCompareForm (pw mode : String) (files : List String) :
    List (String × FormValue) :=
  [("password", .str (jsTrim pw)), ("mode", .str mode)]
  ++ files.map (fun f => ("files", .file f))

/-- Multipart body of the decrypt request, script.js lines 314-319. -/
def buildDecryptForm (pkgFile pw : String) : List (String × FormValue) :=
  [("file", .file pkgFile), ("password", .str (jsTrim pw))]

/-- The "password" entry of a multipart body. -/
def formPassword (form : List (String × FormValue)) : Option FormValue :=
  (form.find? (fun kv => kv.1 == "password")).map (fun kv => kv.2)

/-- Error-body interpretation shared by all three handlers
(`const err = await response.json(); throw new Error(err.error || ...)`):
either `response.json()` rejects (body not JSON) with a parse-error message,
or it yields an object whose "error" field is absent or a string. -/
inductive BodyParse where
  | malformed (exnMsg : String)
  | parsed (errorField : Option String)
deriving DecidableEq

/-- Message of the exception reaching the catch block on a non-success
status, script.js lines 160-163 (and 256-258, 324-327): a JSON parse
failure propagates its own message; otherwise `err.error` when truthy
(a present, non-empty string), else the status-code fallback. -/
def errMsgOfBody (status : Nat) : BodyParse → String
  | .malformed m => m
  | .parsed none => "Server responded with " ++ toString status
  | .parsed (some e) =>
    if e = "" then "Server responded with " ++ toString status else e

/-- Catch-block effects, identical in the three handlers:
log `❌ ERROR: msg` and set the status line to `Error: msg`. -/
def catchEffects (tab msg : String) : List Effect :=
  [.logText tab ("❌ ERROR: " ++ msg), .setStatus ("Error: " ++ msg)]

/-- Outcome of the encrypt fetch: network failure, non-success status with
its (attempted) JSON error body, or success with the two response headers. -/
inductive EncOutcome where
  | netError (msg : String)
  | httpError (status : Nat) (body : BodyParse)
  | ok (timeElapsed contentDisposition : Option String)

/-- Outcome of the compare fetch. -/
inductive CmpOutcome where
  | netError (msg : String)
  | httpError (status : Nat) (body : BodyParse)
  | ok (timeFIFO timeAI contentDisposition : Option String)

/-- Successful decrypt body: `response.json()` may itself reject, else it
yields a session id and an optional list of member filenames
(`data.files` may be absent). -/
inductive DecBody where
  | malformed (exnMsg : String)
  | parsed (sessionId : String) (files : Option (List String))

/-- Outcome of the decrypt fetch. -/
inductive DecOutcome where
  | netError (msg : String)
  | httpError (status : Nat) (body : BodyParse)
  | ok (body : DecBody)

/-- Artifact link for encrypt/compare, script.js lines 173-177/285-289:
object URL target, the resolved filename as `download` attribute. -/
def mkArtifactLink (filename label : String) : DLink :=
  { href := .objectURL, downloadName := filename, text := label,
    className := "download-link" }

/-- Per-member decrypt link, script.js lines 336-344: target URL from the
session id and the URL-encoded member filename, `download` attribute the
last path segment, label showing the member filename. -/
def mkDecLink (sessionId file : String) : DLink :=
  { href := .url ("/api/download_decrypted/" ++ sessionId ++ "/" ++ encodeURIComponent file),
    downloadName := lastSegment file,
    text := "⬇️ Download \"" ++ file ++ "\"",
    className := "download-link" }

/-- Encrypt click handler, script.js lines 147-188: disable the trigger,
log, set status, post the form; on success log the elapsed time, resolve
the filename, log it, create an object URL and insert the download link,
set terminal status; on a non-success status or a network error run the
catch block; finally (always) re-enable the trigger. -/
def encryptClick (pw mode policy : String) (files : List String)
    (res : EncOutcome) : List Effect :=
  ([Effect.setDisabled "btnEncrypt" true,
    Effect.logText "enc" "🚀 Starting encryption... Uploading files to server.",
    Effect.setStatus "Encrypting...",
    Effect.post "/api/encrypt" (buildEncryptForm pw mode policy files)]
  ++ (match res with
    | .netError m => catchEffects "enc" m
    | .httpError status body => catchEffects "enc" (errMsgOfBody status body)
    | .ok te cd =>
      let fname := parseContentDisposition cd "encrypted.zip"
      [Effect.logText "enc" ("✅ Success! Run complete in " ++ jToFixed (readTime te) 4 ++ "s."),
       Effect.logText "enc" ("Package created: " ++ fname),
       Effect.createObjectURL,
       Effect.logLink "enc" (mkArtifactLink fname ("⬇️ Download \"" ++ fname ++ "\"")),
       Effect.setStatus "Encryption complete."]))
  ++ [Effect.setDisabled "btnEncrypt" false]

/-- Compare click handler, script.js lines 243-300: disable, log, set
status, reset the chart to zeros, post the form; on success log the two
parsed header times, update the chart, log the faster/slower verdict,
resolve the filename, create an object URL and insert the download link,
set terminal status; error paths as for encrypt; finally re-enable. -/
def compareClick (pw mode : String) (files : List String)
    (res : CmpOutcome) : List Effect :=
  ([Effect.setDisabled "btnCompare" true,
    Effect.logText "cmp" "🚀 Starting comparison... Uploading files to server.",
    Effect.setStatus "Running comparison...",
    Effect.chartUpdate (some 0) (some 0),
    Effect.post "/api/compare" (buildCompareForm pw mode files)]
  ++ (match res with
    | .netError m => catchEffects "cmp" m
    | .httpError status body => catchEffects "cmp" (errMsgOfBody status body)
    | .ok tf ta cd =>
      let timeFIFO := readTime tf
      let timeAI := readTime ta
      let fname := parseContentDisposition cd "encrypted_ai.zip"
      [Effect.logText "cmp" "✅ Comparison complete on server.",
       Effect.logText "cmp" "--- RESULTS ---",
       Effect.logText "cmp" ("FIFO (Naive):   " ++ jToFixed timeFIFO 4 ++ " seconds"),
       Effect.logText "cmp" ("AI (Priority):  " ++ jToFixed timeAI 4 ++ " seconds"),
       Effect.chartUpdate timeFIFO timeAI,
       Effect.logText "cmp" (cmpVerdictMsg timeFIFO timeAI),
       Effect.logText "cmp" ("AI-Priority package created: " ++ fname),
       Effect.createObjectURL,
       Effect.logLink "cmp" (mkArtifactLink fname "⬇️ Download AI-Priority Package"),
       Effect.setStatus "Comparison complete."]))
  ++ [Effect.setDisabled "btnCompare" false]

/-- Decrypt click handler, script.js lines 309-358: disable, log, set
status, post file and trimmed password; on success parse the JSON body —
a rejected parse goes to the catch block — and either insert one download
link per member filename or log the no-files line, then set terminal
status; error paths as for encrypt; finally re-enable. -/
def decryptClick (pkgFile pw : String) (res : DecOutcome) : List Effect :=
  ([Effect.setDisabled "btnDecrypt" true,
    Effect.logText "dec" "🚀 Sending package to server for decryption...",
    Effect.setStatus "Decrypting...",
    Effect.post "/api/decrypt" (buildDecryptForm pkgFile pw)]
  ++ (match res with
    | .netError m => catchEffects "dec" m
    | .httpError status body => catchEffects "dec" (errMsgOfBody status body)
    | .ok (.malformed m) => catchEffects "dec" m
    | .ok (.parsed sessionId files) =>
      (match files with
       | some fs =>
         if 0 < fs.length then
           Effect.logText "dec"
               ("✅ Success! Server decrypted " ++ toString fs.length ++ " file(s):")
             :: fs.map (fun f => Effect.logLink "dec" (mkDecLink sessionId f))
         else
           [Effect.logText "dec"
              "✅ Decryption complete, but no files were found in the package."]
       | none =>
         [Effect.logText "dec"
            "✅ Decryption complete, but no files were found in the package."])
      ++ [Effect.setStatus "Decryption complete."]))
  ++ [Effect.setDisabled "btnDecrypt" false]

/-- Decrypt trigger enablement, script.js line 304:
`disabled = !(pkg.files.length && pwDec.value.trim())`; the trigger is
enabled iff the FileList is non-empty and the trimmed password is
non-empty (both JS-truthy). -/
def enableDecrypt (pkgFiles : List String) (pw : String) : Bool :=
  pkgFiles.length != 0 && jsTrim pw != ""

/-- Modelled from the spec: index.html is not under src/ (only script.js
is); per the spec the decrypt workflow "accepts only a single input", i.e.
its package file input is a single-file input, so its FileList never holds
more than one file. -/
def pkgInputSingleFile (pkgFiles : List String) : Prop :=
  pkgFiles.length ≤ 1


/- ========= Helper lemmas ========= -/

lemma hasPre_refl (l : List Char) : charsHasPre l l = true := by
  induction l with
  | nil => rfl
  | cons a t ih => simp [charsHasPre, ih]

lemma hasSub_of_hasPre (pat l : List Char) (h : charsHasPre pat l = true) :
    charsHasSub pat l = true := by
  cases l with
  | nil =>
    cases pat with
    | nil => rfl
    | cons a t => simp [charsHasPre] at h
  | cons b ls => simp [charsHasSub, h]

lemma hasSub_append_right (pre pat : List Char) :
    charsHasSub pat (pre ++ pat) = true := by
  induction pre with
  | nil => simpa using hasSub_of_hasPre pat pat (hasPre_refl pat)
  | cons c t ih => simp [charsHasSub, ih]

lemma strContains_append_self (pre pat : String) :
    strContains (pre ++ pat) pat = true := by
  unfold strContains
  rw [String.data_append]
  exact hasSub_append_right pre.data pat.data

lemma filter_revoke_map_logLink (tab : String) (g : String → DLink)
    (fs : List String) :
    (fs.map (fun f => Effect.logLink tab (g f))).filter isRevokeEffect = [] := by
  induction fs with
  | nil => rfl
  | cons a l ih => simp [List.filter_cons, isRevokeEffect, ih]

/- ========= Claim C8 ========= -/

/-- Claim C8: for every workflow trigger (encrypt, compare, decrypt) and
every outcome of its request (success, server-reported error, or caught
exception), the trigger is disabled synchronously on entry — the first
effect of the handler — and re-enabled after the response is fully
handled — the last effect, on every outcome (finally-semantics). -/
theorem claim_C8 (pw mode policy pkg : String) (files : List String)
    (r1 : EncOutcome) (r2 : CmpOutcome) (r3 : DecOutcome) :
    ((encryptClick pw mode policy files r1).head?
        = some (Effect.setDisabled "btnEncrypt" true)
      ∧ (encryptClick pw mode policy files r1).getLast?
        = some (Effect.setDisabled "btnEncrypt" false))
    ∧ ((compareClick pw mode files r2).head?
        = some (Effect.setDisabled "btnCompare" true)
      ∧ (compareClick pw mode files r2).getLast?
        = some (Effect.setDisabled "btnCompare" false))
    ∧ ((decryptClick pkg pw r3).head?
        = some (Effect.setDisabled "btnDecrypt" true)
      ∧ (decryptClick pkg pw r3).getLast?
        = some (Effect.setDisabled "btnDecrypt" false)) := by
  refine ⟨⟨rfl, ?_⟩, ⟨rfl, ?_⟩, ⟨rfl, ?_⟩⟩
  · exact List.getLast?_concat _
  · exact List.getLast?_concat _
  · exact List.getLast?_concat _

/- ========= Claim C3 ========= -/

/-- Claim C3: for every state of the decrypt tab's file input and password
field, the decrypt trigger is enabled if and only if exactly one package
file is chosen and the password, trimmed, is non-empty.  (The bound on the
file-input's length is the single-file-input model `pkgInputSingleFile`,
taken from the spec since index.html is not part of the reviewed source.) -/
theorem claim_C3 (pkgFiles : List String) (pw : String)
    (h : pkgInputSingleFile pkgFiles) :
    enableDecrypt pkgFiles pw = true ↔ pkgFiles.length = 1 ∧ jsTrim pw ≠ "" := by
  unfold pkgInputSingleFile at h
  unfold enableDecrypt
  rw [Bool.and_eq_true, bne_iff_ne, bne_iff_ne]
  constructor
  · rintro ⟨h1, h2⟩
    exact ⟨by omega, h2⟩
  · rintro ⟨h1, h2⟩
    exact ⟨by omega, h2⟩

/-- Witness for C3 at a concrete single-file, non-blank-password state. -/
theorem claim_C3_witness :
    enableDecrypt ["package.zip"] " hunter2 " = true
      ↔ (["package.zip"] : List String).length = 1 ∧ jsTrim " hunter2 " ≠ "" :=
  claim_C3 ["package.zip"] " hunter2 "
    (show (["package.zip"] : List String).length ≤ 1 by decide)

/- ========= Claim C2 ========= -/

/-- Counterexample to claim C2 as stated: on a successful encrypt (and
compare) run the handler creates an object URL for the response binary and
inserts the link, but its trace contains no revocation effect at all — the
object URL is never released, at any delay. -/
theorem claim_C2_counterexample :
    Effect.createObjectURL
        ∈ encryptClick "pw" "AES-GCM" "balanced" ["a.txt"] (.ok none none)
    ∧ (encryptClick "pw" "AES-GCM" "balanced" ["a.txt"] (.ok none none)).filter
        isRevokeEffect = []
    ∧ Effect.createObjectURL
        ∈ compareClick "pw" "AES-GCM" ["a.txt"] (.ok none none none)
    ∧ (compareClick "pw" "AES-GCM" ["a.txt"] (.ok none none none)).filter
        isRevokeEffect = [] :=
  ⟨by decide, by decide, by decide, by decide⟩

/-- Claim C2 as amended: the helper `downloadBlob` does release its object
URL after a fixed 800 ms delay following link insertion and click, but no
handler calls it; the encrypt and compare orchestrators create their object
URLs directly and never revoke them, on any outcome. -/
theorem claim_C2 (pw mode policy pkg fn : String) (files : List String)
    (r1 : EncOutcome) (r2 : CmpOutcome) (r3 : DecOutcome)
    (te tf ta cd : Option String) :
    downloadBlob fn
      = [Effect.createObjectURL, Effect.appendBody, Effect.click,
         Effect.scheduleRevoke 800]
    ∧ (encryptClick pw mode policy files r1).filter isRevokeEffect = []
    ∧ (compareClick pw mode files r2).filter isRevokeEffect = []
    ∧ (decryptClick pkg pw r3).filter isRevokeEffect = []
    ∧ Effect.createObjectURL ∈ encryptClick pw mode policy files (.ok te cd)
    ∧ Effect.createObjectURL ∈ compareClick pw mode files (.ok tf ta cd) := by
  refine ⟨rfl, ?_, ?_, ?_, ?_, ?_⟩
  · cases r1 <;> simp [encryptClick, catchEffects, List.filter_append,
      List.filter_cons, isRevokeEffect]
  · cases r2 <;> simp [compareClick, catchEffects, List.filter_append,
      List.filter_cons, isRevokeEffect]
  · cases r3 with
    | netError m =>
      simp [decryptClick, catchEffects, List.filter_append, List.filter_cons,
        isRevokeEffect]
    | httpError s b =>
      simp [decryptClick, catchEffects, List.filter_append, List.filter_cons,
        isRevokeEffect]
    | ok body =>
      cases body with
      | malformed m =>
        simp [decryptClick, catchEffects, List.filter_append, List.filter_cons,
          isRevokeEffect]
      | parsed sid fsOpt =>
        cases fsOpt with
        | none =>
          simp [decryptClick, List.filter_append, List.filter_cons,
            isRevokeEffect]
        | some fs =>
          by_cases hl : 0 < fs.length <;>
            simp [decryptClick, hl, List.filter_append, List.filter_cons,
              isRevokeEffect, filter_revoke_map_logLink]
  · simp [encryptClick]
  · simp [compareClick]

/- ========= Claim C1 ========= -/

/-- Counterexample to claim C1 as stated: a non-success response whose body
is unparsable as JSON makes `response.json()` reject, so the catch block
logs the JSON parse exception's own message; no logged line of the trace
contains the numeric HTTP status code (502). -/
theorem claim_C1_counterexample :
    Effect.logText "enc" "❌ ERROR: Unexpected token < in JSON at position 0"
        ∈ encryptClick "pw" "AES-GCM" "balanced" ["a.txt"]
            (.httpError 502 (.malformed "Unexpected token < in JSON at position 0"))
    ∧ (loggedTexts (encryptClick "pw" "AES-GCM" "balanced" ["a.txt"]
          (.httpError 502
            (.malformed "Unexpected token < in JSON at position 0")))).all
        (fun m => !(strContains m "502")) = true :=
  ⟨by decide, by decide⟩

/-- Claim C1 as amended: on a non-success status every workflow logs
`❌ ERROR: ` followed by the message of the exception reaching the catch
block; when the body parses as JSON that message is the non-empty "error"
string field if present, and otherwise a fallback containing the numeric
status code; but when the body is unparsable as JSON the logged message is
the JSON parse exception's message, which need not mention the status. -/
theorem claim_C1 (status : Nat) (body : BodyParse)
    (pw mode policy pkg : String) (files : List String) :
    (Effect.logText "enc" ("❌ ERROR: " ++ errMsgOfBody status body)
        ∈ encryptClick pw mode policy files (.httpError status body))
    ∧ (Effect.logText "cmp" ("❌ ERROR: " ++ errMsgOfBody status body)
        ∈ compareClick pw mode files (.httpError status body))
    ∧ (Effect.logText "dec" ("❌ ERROR: " ++ errMsgOfBody status body)
        ∈ decryptClick pkg pw (.httpError status body))
    ∧ (∀ e : String, body = .parsed (some e) → e ≠ "" →
        errMsgOfBody status body = e
        ∧ strContains ("❌ ERROR: " ++ errMsgOfBody status body) e = true)
    ∧ (body = .parsed none →
        errMsgOfBody status body = "Server responded with " ++ toString status
        ∧ strContains ("❌ ERROR: " ++ errMsgOfBody status body)
            (toString status) = true)
    ∧ (∀ m : String, body = .malformed m → errMsgOfBody status body = m) := by
  refine ⟨?_, ?_, ?_, ?_, ?_, ?_⟩
  · simp [encryptClick, catchEffects]
  · simp [compareClick, catchEffects]
  · simp [decryptClick, catchEffects]
  · rintro e rfl he
    have hmsg : errMsgOfBody status (.parsed (some e)) = e := by
      show (if e = "" then "Server responded with " ++ toString status else e) = e
      rw [if_neg he]
    refine ⟨hmsg, ?_⟩
    rw [hmsg]
    exact strContains_append_self "❌ ERROR: " e
  · rintro rfl
    refine ⟨rfl, ?_⟩
    show strContains ("❌ ERROR: " ++ ("Server responded with " ++ toString status))
        (toString status) = true
    unfold strContains
    rw [String.data_append, String.data_append, ← List.append_assoc]
    exact hasSub_append_right _ _
  · rintro m rfl
    rfl

/-- Witness for C1 on a parsed body whose error field is "bad password". -/
theorem claim_C1_witness :
    errMsgOfBody 403 (.parsed (some "bad password")) = "bad password"
    ∧ strContains ("❌ ERROR: " ++ errMsgOfBody 403 (.parsed (some "bad password")))
        "bad password" = true :=
  (claim_C1 403 (.parsed (some "bad password")) "pw" "AES-GCM" "balanced"
    "pkg.zip" []).2.2.2.1 "bad password" rfl (by decide)

/- ========= Claim C4 ========= -/

lemma jsParseFloat_eq_of_scan (s : String) (p : FloatParts)
    (h : scanFloat s = some p) : jsParseFloat s = some (ratOfParts p) := by
  rw [jsParseFloat, h]
  rfl

/-- Counterexample to claim C4 as stated: a present but unparsable header
value is fed to `parseFloat` unchanged (it is truthy, so the `|| '0'`
fallback does not apply) and yields NaN, not 0. -/
theorem claim_C4_counterexample :
    readTime (some "abc") = none ∧ readTime (some "abc") ≠ some 0 :=
  ⟨by decide, by decide⟩

/-- Claim C4 as amended: the elapsed-time values read from the
X-Time-Elapsed / X-Time-FIFO / X-Time-AI headers default to 0 when the
header is absent (or its value is the empty string, which is falsy); a
present non-empty value is passed to `parseFloat` unchanged, so an
unparsable value yields NaN rather than 0. -/
theorem claim_C4 (s : String) (h : s ≠ "") :
    readTime none = some 0
    ∧ readTime (some "") = some 0
    ∧ readTime (some s) = jsParseFloat s
    ∧ jsParseFloat "abc" = none
    ∧ jsParseFloat "1.5" = some ((3 : ℚ) / 2) := by
  have h0 : jsParseFloat "0" = some (ratOfParts ⟨false, 0, 0, 0, false, 0⟩) :=
    jsParseFloat_eq_of_scan _ _ (by decide)
  have hv0 : ratOfParts ⟨false, 0, 0, 0, false, 0⟩ = 0 := by
    norm_num [ratOfParts]
  refine ⟨?_, ?_, ?_, by decide, ?_⟩
  · show jsParseFloat "0" = some 0
    rw [h0, hv0]
  · show jsParseFloat "0" = some 0
    rw [h0, hv0]
  · show jsParseFloat (if s = "" then "0" else s) = jsParseFloat s
    rw [if_neg h]
  · have h15 : jsParseFloat "1.5" = some (ratOfParts ⟨false, 1, 5, 1, false, 0⟩) :=
      jsParseFloat_eq_of_scan _ _ (by decide)
    rw [h15]
    norm_num [ratOfParts]

/-- Witness for C4 at the unparsable header value "abc". -/
theorem claim_C4_witness : readTime (some "abc") = jsParseFloat "abc" :=
  (claim_C4 "abc" (by decide)).2.2.1

/- ========= Claim C5 ========= -/

lemma filterMap_comp_link (tab : String) (g : String → DLink) (fs : List String) :
    List.filterMap
      ((fun e => match e with | Effect.logLink _ l => some l | _ => none)
        ∘ (fun f => Effect.logLink tab (g f))) fs = fs.map g := by
  induction fs with
  | nil => rfl
  | cons a l ih => simp [List.filterMap_cons, Function.comp, ih]

/-- Counterexample to claim C5 as stated: for the decrypt response with
session "abc123" and files ["a.txt", "sub/b.txt"], the second link's
visible label embeds the full member filename "sub/b.txt" — the directory
prefix is not discarded from the visible text (only the `download`
attribute carries the last path segment "b.txt"). -/
theorem claim_C5_counterexample :
    (linksOf (decryptClick "p.zip" "pw"
        (.ok (.parsed "abc123" (some ["a.txt", "sub/b.txt"]))))).map
        (fun l => l.text)
      ≠ ["⬇️ Download \"a.txt\"", "⬇️ Download \"b.txt\""]
    ∧ (linksOf (decryptClick "p.zip" "pw"
        (.ok (.parsed "abc123" (some ["a.txt", "sub/b.txt"]))))).map
        (fun l => l.text)
      = ["⬇️ Download \"a.txt\"", "⬇️ Download \"sub/b.txt\""]
    ∧ (linksOf (decryptClick "p.zip" "pw"
        (.ok (.parsed "abc123" (some ["a.txt", "sub/b.txt"]))))).map
        (fun l => l.downloadName)
      = ["a.txt", "b.txt"]
    ∧ strContains "⬇️ Download \"sub/b.txt\"" "sub/" = true :=
  ⟨by decide, by decide, by decide, by decide⟩

/-- Claim C5 as amended: for every decrypt success response, one download
link is emitted per member filename; each link's target URL embeds the
session identifier and the URL-encoded original relative path, and its
`download` attribute (the save-as name) is the last path segment of the
member filename; the visible label, however, embeds the full member
filename, directory prefix included.  For session "abc123" and files
["a.txt", "sub/b.txt"] the save-as names are "a.txt" and "b.txt" and the
URLs embed "abc123" and the encoded paths "a.txt" and "sub%2Fb.txt". -/
theorem claim_C5 (pkg pw sid : String) (fs : List String) :
    linksOf (decryptClick pkg pw (.ok (.parsed sid (some fs))))
      = fs.map (mkDecLink sid)
    ∧ fs.map (fun f => (mkDecLink sid f).downloadName) = fs.map lastSegment
    ∧ fs.map (fun f => (mkDecLink sid f).href)
      = fs.map (fun f =>
          Href.url ("/api/download_decrypted/" ++ sid ++ "/"
            ++ encodeURIComponent f))
    ∧ fs.map (fun f => (mkDecLink sid f).text)
      = fs.map (fun f => "⬇️ Download \"" ++ f ++ "\"")
    ∧ linksOf (decryptClick "p.zip" "pw"
        (.ok (.parsed "abc123" (some ["a.txt", "sub/b.txt"]))))
      = [{ href := .url "/api/download_decrypted/abc123/a.txt",
           downloadName := "a.txt", text := "⬇️ Download \"a.txt\"",
           className := "download-link" },
         { href := .url "/api/download_decrypted/abc123/sub%2Fb.txt",
           downloadName := "b.txt", text := "⬇️ Download \"sub/b.txt\"",
           className := "download-link" }] := by
  refine ⟨?_, rfl, rfl, rfl, by decide⟩
  by_cases hl : 0 < fs.length
  · simp [decryptClick, linksOf, hl, List.filterMap_append, List.filterMap_cons,
      filterMap_comp_link]
  · have hfs : fs = [] := List.length_eq_zero.mp (by omega)
    subst hfs
    simp [decryptClick, linksOf, List.filterMap_append, List.filterMap_cons]

/- ========= Claim C7 ========= -/

/-- Counterexample to claim C7 as stated: the code deletes every double
quote in the segment after "filename=" (a global regex replace), not just
the surrounding pair; on a header whose filename value itself contains
quotes the two readings disagree, so the filename is not obtained by
"stripping surrounding quotes". -/
theorem claim_C7_counterexample :
    parseContentDisposition (some "attachment; filename=\"my\"weird\".zip\"")
        "encrypted.zip"
      ≠ specFilename (some "attachment; filename=\"my\"weird\".zip\"")
          "encrypted.zip"
    ∧ parseContentDisposition (some "attachment; filename=\"my\"weird\".zip\"")
        "encrypted.zip" = "myweird.zip"
    ∧ specFilename (some "attachment; filename=\"my\"weird\".zip\"")
        "encrypted.zip" = "my\"weird\".zip" :=
  ⟨by decide, by decide, by decide⟩

/-- Claim C7 as amended: the output filename is obtained by taking the part
of the content-disposition header after "filename=" and deleting every
double-quote character in it, so `attachment; filename="result.zip"` yields
`result.zip`; when the header is missing, contains no "filename=" segment,
or the remainder is empty after quote deletion, the workflow-specific fixed
fallback is used — "encrypted.zip" for encrypt, "encrypted_ai.zip" for
compare, as the inserted download links show. -/
theorem claim_C7 (fb s : String) (pw mode policy : String)
    (files : List String) (te tf ta : Option String) :
    parseContentDisposition none fb = fb
    ∧ ((splitOnStr s "filename=").length = 1 →
        parseContentDisposition (some s) fb = fb)
    ∧ parseContentDisposition (some "attachment; filename=\"result.zip\"") fb
      = "result.zip"
    ∧ Effect.logLink "enc"
        (mkArtifactLink "encrypted.zip" "⬇️ Download \"encrypted.zip\"")
        ∈ encryptClick pw mode policy files (.ok te none)
    ∧ Effect.logLink "cmp"
        (mkArtifactLink "encrypted_ai.zip" "⬇️ Download AI-Priority Package")
        ∈ compareClick pw mode files (.ok tf ta none) := by
  refine ⟨rfl, ?_, ?_, ?_, ?_⟩
  · intro h
    show (match (splitOnStr s "filename=")[1]? with
      | none => fb
      | some seg =>
        let name := String.mk (seg.data.filter (fun c => c ≠ quoteCh))
        if name = "" then fb else name) = fb
    rw [List.getElem?_eq_none (by omega : (splitOnStr s "filename=").length ≤ 1)]
  · have hstep : parseContentDisposition
        (some "attachment; filename=\"result.zip\"") fb
        = if ("result.zip" : String) = "" then fb else "result.zip" := rfl
    rw [hstep, if_neg (by decide)]
  · simp [encryptClick, parseContentDisposition]
  · simp [compareClick, parseContentDisposition]

/-- Witness for C7 on a header with no "filename=" segment. -/
theorem claim_C7_witness :
    parseContentDisposition (some "attachment") "encrypted.zip"
      = "encrypted.zip" :=
  (claim_C7 "encrypted.zip" "attachment" "pw" "AES-GCM" "balanced" [] none
    none none).2.1 (by decide)

/- ========= Claim C6 ========= -/

lemma jPercent_eq (fifo ai : ℚ) :
    (if jGtQ (some fifo) 0 then
        jMul (jDiv (jSub (some fifo) (some ai)) (some fifo)) (some 100)
      else some 0)
      = some (percentOf fifo ai) := by
  by_cases h : 0 < fifo
  · simp [jGtQ, jSub, jDiv, jMul, percentOf, h, h.ne']
  · simp [jGtQ, percentOf, h]

lemma cmpMsg_faster (fifo ai : ℚ) (h : isFasterB fifo ai = true) :
    cmpVerdictMsg (some fifo) (some ai)
      = "🏆 AI was " ++ toFixedQ (savedOf fifo ai) 4 ++ "s ("
          ++ toFixedQ (percentOf fifo ai) 1 ++ "%) faster!" := by
  have hgt : jGtQ (jSub (some fifo) (some ai)) (1 / 10000) = true := h
  unfold cmpVerdictMsg
  rw [jPercent_eq, hgt, if_pos rfl]
  rfl

lemma cmpMsg_slower (fifo ai : ℚ) (h : isFasterB fifo ai = false) :
    cmpVerdictMsg (some fifo) (some ai)
      = "🐌 AI was " ++ toFixedQ |savedOf fifo ai| 4 ++ "s slower." := by
  have hgt : jGtQ (jSub (some fifo) (some ai)) (1 / 10000) = false := h
  unfold cmpVerdictMsg
  rw [hgt, if_neg Bool.false_ne_true]
  rfl

lemma toFixedQ_eq (q : ℚ) (k : Nat) (n : Int) (d m : Nat)
    (hq : q * (10 : ℚ) ^ k + 1 / 2 = (n : ℚ) / (d : ℚ))
    (hm : n / (d : Int) = (m : Int)) :
    toFixedQ q k = natFixed m k := by
  unfold toFixedQ
  rw [hq, Rat.floor_intCast_div_natCast, hm]
  simp

/-- Claim C6: for every pair of real comparison times, saved = fifo − ai;
percent = saved/fifo·100 when fifo > 0 and 0 otherwise; the "faster"
message with the signed delta and the percentage is logged exactly when
saved is strictly greater than 0.0001, else the "slower" message with the
absolute delta; fifo = 2, ai = 1.5 gives saved = 0.5, percent = 25, logged
as faster, and fifo = 0, ai = 0 gives percent = 0, logged as slower. -/
theorem claim_C6 (fifo ai : ℚ) :
    savedOf fifo ai = fifo - ai
    ∧ (0 < fifo → percentOf fifo ai = savedOf fifo ai / fifo * 100)
    ∧ (¬ 0 < fifo → percentOf fifo ai = 0)
    ∧ (isFasterB fifo ai = true ↔ 1 / 10000 < savedOf fifo ai)
    ∧ (isFasterB fifo ai = true →
        cmpVerdictMsg (some fifo) (some ai)
          = "🏆 AI was " ++ toFixedQ (savedOf fifo ai) 4 ++ "s ("
              ++ toFixedQ (percentOf fifo ai) 1 ++ "%) faster!")
    ∧ (isFasterB fifo ai = false →
        cmpVerdictMsg (some fifo) (some ai)
          = "🐌 AI was " ++ toFixedQ |savedOf fifo ai| 4 ++ "s slower.")
    ∧ savedOf 2 ((3 : ℚ) / 2) = 1 / 2
    ∧ percentOf 2 ((3 : ℚ) / 2) = 25
    ∧ isFasterB 2 ((3 : ℚ) / 2) = true
    ∧ cmpVerdictMsg (some 2) (some ((3 : ℚ) / 2))
      = "🏆 AI was 0.5000s (25.0%) faster!"
    ∧ percentOf 0 0 = 0
    ∧ isFasterB 0 0 = false
    ∧ cmpVerdictMsg (some 0) (some 0) = "🐌 AI was 0.0000s slower." := by
  have hsav : savedOf 2 ((3 : ℚ) / 2) = 1 / 2 := by norm_num [savedOf]
  have hper : percentOf 2 ((3 : ℚ) / 2) = 25 := by
    simp only [percentOf]
    rw [if_pos (by norm_num : (0 : ℚ) < 2)]
    norm_num
  have hf : isFasterB 2 ((3 : ℚ) / 2) = true := by
    unfold isFasterB
    exact decide_eq_true (by norm_num)
  have hs0 : isFasterB 0 0 = false := by
    unfold isFasterB
    exact decide_eq_false (by norm_num)
  have ht1 : toFixedQ ((1 : ℚ) / 2) 4 = natFixed 5000 4 :=
    toFixedQ_eq _ _ 10001 2 5000 (by norm_num) (by decide)
  have ht2 : toFixedQ (25 : ℚ) 1 = natFixed 250 1 :=
    toFixedQ_eq _ _ 501 2 250 (by norm_num) (by decide)
  have ht3 : toFixedQ (0 : ℚ) 4 = natFixed 0 4 :=
    toFixedQ_eq _ _ 1 2 0 (by norm_num) (by decide)
  refine ⟨rfl, ?_, ?_, ?_, cmpMsg_faster fifo ai, cmpMsg_slower fifo ai,
    hsav, hper, hf, ?_, by simp [percentOf], hs0, ?_⟩
  · intro h
    simp only [percentOf, savedOf]
    rw [if_pos h]
  · intro h
    simp only [percentOf]
    rw [if_neg h]
  · unfold isFasterB savedOf
    exact decide_eq_true_iff
  · rw [cmpMsg_faster 2 ((3 : ℚ) / 2) hf, hsav, hper, ht1, ht2]
    decide
  · have habs : |savedOf 0 (0 : ℚ)| = 0 := by norm_num [savedOf]
    rw [cmpMsg_slower 0 0 hs0, habs, ht3]
    decide

/-- Witness for C6: the percent formula at fifo = 2 > 0. -/
theorem claim_C6_witness :
    percentOf 2 ((3 : ℚ) / 2) = savedOf 2 ((3 : ℚ) / 2) / 2 * 100 :=
  (claim_C6 2 ((3 : ℚ) / 2)).2.1 (by norm_num)

/- ========= Claim C9 ========= -/

lemma renderedTenths_step (n : Nat) : renderedTenths n ≤ renderedTenths (n + 1) := by
  unfold renderedTenths tenthsOf
  have hp2 : (1024 : Nat) ^ 2 = 1048576 := by norm_num
  have hp3 : (1024 : Nat) ^ 3 = 1073741824 := by norm_num
  simp only [hp2, hp3]
  split_ifs <;> omega

/-- Claim C9: fmtBytes is monotonic and unit-consistent — fmtBytes 0 =
"0 B", fmtBytes 1023 ends in " B", fmtBytes 1024 = "1.0 KB",
fmtBytes 1024² = "1.0 MB", fmtBytes 1024³ = "1.0 GB", and for byte counts
m ≤ n the quantity rendered by fmtBytes, re-expressed in bytes through its
unit factor (`renderedTenths`, which is ten times that value), never
decreases. -/
theorem claim_C9 :
    fmtBytes 0 = "0 B"
    ∧ fmtBytes 1023 = "1023 B"
    ∧ strEndsWith (fmtBytes 1023) " B" = true
    ∧ fmtBytes 1024 = "1.0 KB"
    ∧ fmtBytes (1024 ^ 2) = "1.0 MB"
    ∧ fmtBytes (1024 ^ 3) = "1.0 GB"
    ∧ ∀ m n : Nat, m ≤ n → renderedTenths m ≤ renderedTenths n := by
  refine ⟨by decide, by decide, by decide, by decide, by decide, by decide, ?_⟩
  intro m n h
  exact monotone_nat_of_le_succ renderedTenths_step h

/-- Witness for C9: monotonicity across the B/KB unit boundary. -/
theorem claim_C9_witness : renderedTenths 1000 ≤ renderedTenths 2048 :=
  claim_C9.2.2.2.2.2.2 1000 2048 (by decide)

/- ========= Claim C10 ========= -/

lemma dropWhile_append_all (p : Char → Bool) (l₁ l₂ : List Char)
    (h : ∀ c ∈ l₁, p c = true) :
    (l₁ ++ l₂).dropWhile p = l₂.dropWhile p := by
  induction l₁ with
  | nil => rfl
  | cons a t ih =>
    have ha : p a = true := h a (by simp)
    simp only [List.cons_append, List.dropWhile_cons, ha, if_true]
    exact ih (fun c hc => h c (by simp [hc]))

lemma dropWhile_append_pos (p : Char → Bool) (l₁ l₂ : List Char)
    (h : l₁.dropWhile p ≠ []) :
    (l₁ ++ l₂).dropWhile p = l₁.dropWhile p ++ l₂ := by
  induction l₁ with
  | nil => simp at h
  | cons a t ih =>
    by_cases ha : p a = true
    · rw [List.dropWhile_cons, if_pos ha] at h
      simp only [List.cons_append, List.dropWhile_cons, ha, if_true]
      exact ih h
    · have ha' : p a = false := by revert ha; cases p a <;> simp
      simp [List.cons_append, List.dropWhile_cons, ha']

lemma dropWhile_nil_of_all (p : Char → Bool) (l : List Char)
    (h : ∀ c ∈ l, p c = true) : l.dropWhile p = [] := by
  induction l with
  | nil => rfl
  | cons a t ih =>
    have ha : p a = true := h a (by simp)
    simp only [List.dropWhile_cons, ha, if_true]
    exact ih (fun c hc => h c (by simp [hc]))

lemma jsTrimL_pad (w₁ w₂ core : List Char)
    (h₁ : ∀ c ∈ w₁, isWsChar c = true) (h₂ : ∀ c ∈ w₂, isWsChar c = true) :
    jsTrimL (w₁ ++ (core ++ w₂)) = jsTrimL core := by
  unfold jsTrimL
  rw [dropWhile_append_all isWsChar w₁ (core ++ w₂) h₁]
  by_cases hq : core.dropWhile isWsChar = []
  · rw [dropWhile_append_all isWsChar core w₂
      (fun c hc => List.dropWhile_eq_nil_iff.mp hq c hc), hq]
    rw [dropWhile_nil_of_all isWsChar w₂ h₂]
  · rw [dropWhile_append_pos isWsChar core w₂ hq, List.reverse_append]
    rw [dropWhile_append_all isWsChar w₂.reverse _
      (fun c hc => h₂ c (List.mem_reverse.mp hc))]

lemma jsTrim_pad (w₁ core w₂ : String)
    (h₁ : ∀ c ∈ w₁.data, isWsChar c = true)
    (h₂ : ∀ c ∈ w₂.data, isWsChar c = true) :
    jsTrim (w₁ ++ core ++ w₂) = jsTrim core := by
  unfold jsTrim
  congr 1
  have hd : (w₁ ++ core ++ w₂).data = w₁.data ++ (core.data ++ w₂.data) := by
    rw [String.data_append, String.data_append, List.append_assoc]
  rw [hd]
  exact jsTrimL_pad w₁.data w₂.data core.data h₁ h₂

/-- Claim C10: for every workflow submission the password value placed in
the multipart body is the trimmed form of the password input's value, so
surrounding whitespace is never transmitted, and two password inputs that
differ only in surrounding whitespace produce identical request bodies. -/
theorem claim_C10 (pw mode policy pkg : String) (files : List String)
    (w₁ core w₂ : String)
    (h₁ : ∀ c ∈ w₁.data, isWsChar c = true)
    (h₂ : ∀ c ∈ w₂.data, isWsChar c = true) :
    formPassword (buildEncryptForm pw mode policy files)
      = some (FormValue.str (jsTrim pw))
    ∧ formPassword (buildCompareForm pw mode files)
      = some (FormValue.str (jsTrim pw))
    ∧ formPassword (buildDecryptForm pkg pw)
      = some (FormValue.str (jsTrim pw))
    ∧ jsTrim (w₁ ++ core ++ w₂) = jsTrim core
    ∧ buildEncryptForm (w₁ ++ core ++ w₂) mode policy files
      = buildEncryptForm core mode policy files
    ∧ buildCompareForm (w₁ ++ core ++ w₂) mode files
      = buildCompareForm core mode files
    ∧ buildDecryptForm pkg (w₁ ++ core ++ w₂) = buildDecryptForm pkg core := by
  have ht := jsTrim_pad w₁ core w₂ h₁ h₂
  refine ⟨rfl, rfl, rfl, ht, ?_, ?_, ?_⟩
  · unfold buildEncryptForm
    rw [ht]
  · unfold buildCompareForm
    rw [ht]
  · unfold buildDecryptForm
    rw [ht]

/-- Witness for C10 on a password padded with spaces on both sides. -/
theorem claim_C10_witness :
    jsTrim (" " ++ "hunter2" ++ "  ") = jsTrim "hunter2"
    ∧ buildEncryptForm (" " ++ "hunter2" ++ "  ") "AES-GCM" "balanced" ["a.txt"]
      = buildEncryptForm "hunter2" "AES-GCM" "balanced" ["a.txt"] := by
  have h := claim_C10 "pw" "AES-GCM" "balanced" "p.zip" ["a.txt"]
    " " "hunter2" "  " (by decide) (by decide)
  exact ⟨h.2.2.2.1, h.2.2.2.2.1⟩
